import Mathlib

/-!
Verification of the construction-chatbot core (intent resolution, dispatch,
and phase-progress aggregation) against its natural-language specification.

The Python source is embedded shallowly:

* `get_project_phase_info` (app/database/phase_queries.py) becomes a pure
  function over a list of `Phase` records; the SQL `ORDER BY "order"` clauses
  are modelled by an explicit insertion sort on the `order` field.
* `get_project_details` / `get_project_by_name` / `get_all_projects`
  (app/database/project_queries.py) become functions over a database modelled
  as a `List Project` (the `projects` table in row order).  SQL `ILIKE`
  without wildcards is case-insensitive equality, `ILIKE` with a `%…%`
  pattern is case-insensitive substring containment, and
  `ORDER BY "updatedAt" DESC LIMIT 1` picks the head of the list sorted by
  `updatedAt` descending.
* `analyze_query` / `_enhance_analysis_with_entities`
  (app/chatbot/processor.py) become pure functions.  The oracle call is an
  explicit `OracleResult` argument; the JSON-parsing helpers `_extract_json`
  and `json.loads`, and the large regex classifier
  `_pattern_matching_fallback`, are abstracted as function parameters of type
  `String → Option Analysis` so theorems quantify over every behaviour of
  these collaborators.  The small literal regexes inside
  `_enhance_analysis_with_entities` are implemented concretely.
* The two dispatcher branches the claims exercise
  (`list_projects`, `project_phase_status` in `execute_database_operation`)
  are modelled as written in the source.

Numeric progress values are rationals (`ℚ`); Python floats on these code
paths only ever divide integers, so ℚ is exact.
-/

/-! ## Basic string utilities (substring search, lowercase, title case) -/

/-- Containment of `pat` as a contiguous run of `hay`, like Python `pat in hay`. -/
def charListContains : List Char → List Char → Bool
  | [], pat => pat.isEmpty
  | h :: t, pat => List.isPrefixOf pat (h :: t) || charListContains t pat

/-- Python `pat in s` for strings. -/
def strContains (s pat : String) : Bool :=
  charListContains s.toList pat.toList

/-- Python `s.lower()` (ASCII); written via `List.map` so the kernel can
evaluate it (`String.toLower` is defined by well-founded recursion). -/
def lowerStr (s : String) : String :=
  String.mk (s.toList.map Char.toLower)

/-- Python `pat in s.lower()` for a lowercase literal `pat`. -/
def lowerContains (s pat : String) : Bool :=
  strContains (lowerStr s) pat

/-- Case-insensitive substring containment, modelling SQL `name ILIKE '%pat%'`. -/
def strContainsCI (s pat : String) : Bool :=
  charListContains (lowerStr s).toList (lowerStr pat).toList

/-- Case-insensitive prefix test on character lists. -/
def ciPrefixOf (pat s : List Char) : Bool :=
  List.isPrefixOf (pat.map Char.toLower) (s.map Char.toLower)

/-- Python `str.title()` restricted to ASCII words: the first alphabetic
character of each word is uppercased and the rest lowercased. -/
def titleAux : List Char → Bool → List Char
  | [], _ => []
  | h :: t, atStart =>
    if h.isAlpha then (if atStart then h.toUpper else h.toLower) :: titleAux t false
    else h :: titleAux t true

/-- Python `str.title()`. -/
def titleCase (s : String) : String :=
  String.mk (titleAux s.toList true)

/-! ## Data model: phases, subphases, projects -/

/-- Row of the `subphases` table (columns used by the aggregator). -/
structure Subphase where
  id : String
  name : String
  status : String
  order : Nat
deriving Repr, DecidableEq

/-- Row of the `phases` table, carrying its `subphases` rows (the aggregator
fetches them per phase with `ORDER BY "order"`). -/
structure Phase where
  id : String
  name : String
  status : String
  order : Nat
  subphases : List Subphase
deriving Repr, DecidableEq

/-- Row of the `projects` table (columns the claims depend on), carrying its
`phases` rows.  `updatedAt` is an abstract timestamp; larger is newer. -/
structure Project where
  id : String
  name : String
  updatedAt : Nat
  percentComplete : ℚ
  phases : List Phase
deriving Repr, DecidableEq

/-- SQL `ORDER BY "order"` on `phases` rows (stable; ties keep row order). -/
def sortPhases (ps : List Phase) : List Phase :=
  List.insertionSort (fun a b => a.order ≤ b.order) ps

/-- SQL `ORDER BY "order"` on `subphases` rows. -/
def sortSubphases (ss : List Subphase) : List Subphase :=
  List.insertionSort (fun a b => a.order ≤ b.order) ss

/-- SQL `ORDER BY "updatedAt" DESC` on `projects` rows. -/
def sortByUpdatedDesc (ps : List Project) : List Project :=
  List.insertionSort (fun a b => b.updatedAt ≤ a.updatedAt) ps

/-! ## Phase-Progress Aggregator (`PhaseQueries.get_project_phase_info`) -/

/-- Per-phase progress exactly as computed inside the loop of
`get_project_phase_info`: the share of `Completed` subphases when subphases
exist, otherwise 100 / 50 / 0 from the phase's own status. -/
def phaseProgress (phase : Phase) : ℚ :=
  let subphases := sortSubphases phase.subphases
  if subphases.length > 0 then
    (((subphases.filter (fun s => s.status == "Completed")).length : ℚ)
        / (subphases.length : ℚ)) * 100
  else if phase.status == "Completed" then 100
  else if phase.status == "Progress" then 50
  else 0

/-- Loop body `for subphase in subphases: if status in ['Progress','Todo']:
active_subphase = subphase; break` — the first match in subphase order. -/
def activeSubphase (subphases : List Subphase) : Option Subphase :=
  subphases.find? (fun s => s.status == "Progress" || s.status == "Todo")

/-- The `current_phase` dictionary built when a phase has status `Progress`. -/
structure CurrentPhase where
  id : String
  name : String
  progress : ℚ
  subphases : List Subphase
  order : Nat
  current_subphase : Option Subphase
deriving Repr, DecidableEq

/-- Entry appended to `phase_info` for every phase. -/
structure PhaseSummary where
  id : String
  name : String
  status : String
  progress : ℚ
  subphases : List Subphase
  order : Nat
deriving Repr, DecidableEq

/-- Value returned by `get_project_phase_info`. -/
structure PhaseInfo where
  phases : List PhaseSummary
  current_phase : Option CurrentPhase
  overall_progress : ℚ
  phase_count : Nat
deriving Repr, DecidableEq

/-- The `current_phase` dictionary for one phase. -/
def mkCurrentPhase (phase : Phase) : CurrentPhase :=
  { id := phase.id
    name := phase.name
    progress := phaseProgress phase
    subphases := sortSubphases phase.subphases
    order := phase.order
    current_subphase := activeSubphase (sortSubphases phase.subphases) }

/-- The `phase_info` entry for one phase. -/
def mkPhaseSummary (phase : Phase) : PhaseSummary :=
  { id := phase.id
    name := phase.name
    status := phase.status
    progress := phaseProgress phase
    subphases := sortSubphases phase.subphases
    order := phase.order }

/-- Mutable state of the `for phase in phases` loop. -/
structure AggState where
  phase_info : List PhaseSummary
  current_phase : Option CurrentPhase
  total_weight : ℚ
  weighted_sum : ℚ

/-- One iteration of the loop in `get_project_phase_info`:  append the phase
summary, overwrite `current_phase` whenever this phase's status is
`Progress`, and accumulate weight 1 and the weighted progress. -/
def aggStep (st : AggState) (phase : Phase) : AggState :=
  { phase_info := st.phase_info ++ [mkPhaseSummary phase]
    current_phase :=
      if phase.status == "Progress" then some (mkCurrentPhase phase)
      else st.current_phase
    total_weight := st.total_weight + 1
    weighted_sum := st.weighted_sum + 1 * phaseProgress phase }

/-- `PhaseQueries.get_project_phase_info`, with the project's phase rows (in
table order) as input; the SQL `ORDER BY "order"` is applied first. -/
def get_project_phase_info (phases : List Phase) : PhaseInfo :=
  let ordered := sortPhases phases
  let st := ordered.foldl aggStep ⟨[], none, 0, 0⟩
  { phases := st.phase_info
    current_phase := st.current_phase
    overall_progress :=
      if st.total_weight > 0 then st.weighted_sum / st.total_weight else 0
    phase_count := ordered.length }

/-! ## Characterization lemmas for the aggregator loop -/

/-- The loop's `phase_info` accumulator collects one summary per phase, in
iteration order. -/
theorem foldl_aggStep_phase_info (ps : List Phase) (st : AggState) :
    (ps.foldl aggStep st).phase_info = st.phase_info ++ ps.map mkPhaseSummary := by
  induction ps generalizing st with
  | nil => simp
  | cons a l ih => simp [ih, aggStep]

/-- The loop's `total_weight` accumulator counts one unit per phase. -/
theorem foldl_aggStep_total_weight (ps : List Phase) (st : AggState) :
    (ps.foldl aggStep st).total_weight = st.total_weight + (ps.length : ℚ) := by
  induction ps generalizing st with
  | nil => simp
  | cons a l ih =>
    simp only [List.foldl_cons, ih, aggStep, List.length_cons]
    push_cast
    ring

/-- The loop's `weighted_sum` accumulator adds up the per-phase progress. -/
theorem foldl_aggStep_weighted_sum (ps : List Phase) (st : AggState) :
    (ps.foldl aggStep st).weighted_sum = st.weighted_sum + (ps.map phaseProgress).sum := by
  induction ps generalizing st with
  | nil => simp
  | cons a l ih =>
    simp only [List.foldl_cons, ih, aggStep, List.map_cons, List.sum_cons]
    ring

/-- The loop's `current_phase` variable is overwritten by every phase whose
status is `Progress`, so after the loop it holds the phase found by scanning
the iteration order backwards for the first `Progress` status. -/
theorem foldl_aggStep_current_phase (ps : List Phase) (st : AggState) :
    (ps.foldl aggStep st).current_phase =
      match ps.reverse.find? (fun p => p.status == "Progress") with
      | some p => some (mkCurrentPhase p)
      | none => st.current_phase := by
  induction ps generalizing st with
  | nil => rfl
  | cons a l ih =>
    simp only [List.foldl_cons, List.reverse_cons]
    rw [ih]
    rcases h : l.reverse.find? (fun p => p.status == "Progress") with _ | p
    · rw [List.find?_append, h]
      simp only [Option.none_or]
      cases ha : a.status == "Progress" <;> simp [List.find?, ha, aggStep]
    · rw [List.find?_append, h]
      rfl

/-- The `phases` field of the aggregator output: one summary per phase row,
in `order`-sorted sequence. -/
theorem get_project_phase_info_phases (ps : List Phase) :
    (get_project_phase_info ps).phases = (sortPhases ps).map mkPhaseSummary := by
  simp [get_project_phase_info, foldl_aggStep_phase_info]

/-- The `current_phase` field of the aggregator output: the `Progress` phase
found last in `order`-sorted sequence, if any. -/
theorem get_project_phase_info_current_phase (ps : List Phase) :
    (get_project_phase_info ps).current_phase =
      ((sortPhases ps).reverse.find? (fun p => p.status == "Progress")).map mkCurrentPhase := by
  simp only [get_project_phase_info, foldl_aggStep_current_phase]
  rcases h : (sortPhases ps).reverse.find? (fun p => p.status == "Progress") with _ | p <;> simp [h]

/-- The `overall_progress` field of the aggregator output for a nonempty
phase list: the plain average of the per-phase progress values. -/
theorem get_project_phase_info_overall (ps : List Phase) (h : ps ≠ []) :
    (get_project_phase_info ps).overall_progress =
      (ps.map phaseProgress).sum / (ps.length : ℚ) := by
  have hlen : (sortPhases ps).length = ps.length := List.length_insertionSort _ _
  have hsum : ((sortPhases ps).map phaseProgress).sum = (ps.map phaseProgress).sum :=
    ((List.perm_insertionSort _ ps).map phaseProgress).sum_eq
  have hpos : (0 : ℚ) < (ps.length : ℚ) := by
    have : 0 < ps.length := List.length_pos.mpr h
    exact_mod_cast this
  simp only [get_project_phase_info, foldl_aggStep_total_weight, foldl_aggStep_weighted_sum,
    hlen, hsum, zero_add]
  rw [if_pos hpos]

/-- `phaseProgress` does not depend on the subphase sort: it equals the same
formula on the raw subphase rows. -/
theorem phaseProgress_eq (p : Phase) :
    phaseProgress p =
      if p.subphases.length > 0 then
        (((p.subphases.filter (fun s => s.status == "Completed")).length : ℚ)
            / (p.subphases.length : ℚ)) * 100
      else if p.status == "Completed" then 100
      else if p.status == "Progress" then 50
      else 0 := by
  have hlen : (sortSubphases p.subphases).length = p.subphases.length :=
    List.length_insertionSort _ _
  have hfil : ((sortSubphases p.subphases).filter (fun s => s.status == "Completed")).length
      = (p.subphases.filter (fun s => s.status == "Completed")).length :=
    ((List.perm_insertionSort _ p.subphases).filter _).length_eq
  simp only [phaseProgress, hlen, hfil]

/-! ## Concrete fixtures for the aggregator claims -/

/-- Two phases that are both `Progress`, the first one earlier in `order`. -/
def twoProgressPhases : List Phase :=
  [⟨"p1", "P1", "Progress", 1, []⟩,
   ⟨"p2", "P2", "Progress", 2, []⟩]

/-- A phase whose only subphase is `Progress` (no tasks exist at this level in
the source), paired with a `Review` phase without subphases. -/
def c3Phases : List Phase :=
  [⟨"p1", "P1", "Progress", 1, [⟨"s1", "S1", "Progress", 1⟩]⟩,
   ⟨"p2", "P2", "Review", 2, []⟩]

/-- A `Progress` phase whose first-ordered subphase is `Todo` while a
later-ordered subphase is `Progress`. -/
def c7Phases : List Phase :=
  [⟨"p1", "P1", "Progress", 1,
    [⟨"s1", "S1", "Todo", 1⟩, ⟨"s2", "S2", "Progress", 2⟩]⟩]

/-- Three phases with statuses `Completed`, `Progress`, `Todo` and no
subphases. -/
def threeStatusPhases : List Phase :=
  [⟨"p1", "P1", "Completed", 1, []⟩,
   ⟨"p2", "P2", "Progress", 2, []⟩,
   ⟨"p3", "P3", "Todo", 3, []⟩]

/-! ## Claims C1, C3, C7, C8 about the Phase-Progress Aggregator -/

/-- C1, counterexample.  The claim says that with two phases of status
`Progress` the aggregator selects the one that comes FIRST in `order`
(here `P1`).  On `twoProgressPhases` the code selects `P2`, the LAST one in
`order`, because the loop overwrites `current_phase` on every `Progress`
phase it visits. -/
theorem c1_counterexample :
    ((get_project_phase_info twoProgressPhases).current_phase.map
        (fun c => c.name)) = some "P2"
    ∧ (some "P2" : Option String) ≠ some "P1" := by
  constructor
  · simp [twoProgressPhases, get_project_phase_info, sortPhases, List.insertionSort,
      List.orderedInsert, aggStep, mkPhaseSummary, mkCurrentPhase,
      phaseProgress, activeSubphase, sortSubphases]
  · simp

/-- C1 as amended: for every phase list, `get_project_phase_info` selects as
`current_phase` the phase with status `Progress` that comes LAST in the
`order`-sorted sequence (absent when no phase is in `Progress`); this is a
pure function of the rows, hence deterministic on every run. -/
theorem c1_current_phase_is_last_progress_in_order (ps : List Phase) :
    (get_project_phase_info ps).current_phase =
      ((sortPhases ps).reverse.find? (fun p => p.status == "Progress")).map
        mkCurrentPhase :=
  get_project_phase_info_current_phase ps

/-- C3, counterexample.  The claim's rules (subphase progress from the status
map `{Progress ↦ 50, Review ↦ 90, …}` and phase progress as the mean of
subphase progress values) would give `P1` progress 50 (mean of one `Progress`
subphase) and `P2` progress 90 (`Review` tier).  The code instead computes
the fraction of `Completed` subphases (0 of 1 → 0) for `P1`, and has no
`Review ↦ 90` tier (`P2` gets 0). -/
theorem c3_counterexample :
    ((get_project_phase_info c3Phases).phases.map (fun s => s.progress)) = [0, 0]
    ∧ ([0, 0] : List ℚ) ≠ [50, 90] := by
  constructor
  · simp [c3Phases, get_project_phase_info, sortPhases, List.insertionSort,
      List.orderedInsert, aggStep, mkPhaseSummary, mkCurrentPhase,
      phaseProgress, activeSubphase, sortSubphases]
  · simp

/-- C3 as amended: for every phase, the aggregator computes phase progress as
(count of subphases with status `Completed` / total subphase count) × 100
when the phase has subphases — not as a mean of per-subphase progress values,
and without consulting any task counts — and otherwise from the status map
`{Completed ↦ 100, Progress ↦ 50, anything else ↦ 0}` applied to the phase's
own status (there is no `Review ↦ 90` tier). -/
theorem c3_phase_progress_formula (ps : List Phase) :
    (get_project_phase_info ps).phases.map (fun s => (s.id, s.progress)) =
      (sortPhases ps).map (fun p => (p.id,
        if p.subphases.length > 0 then
          (((p.subphases.filter (fun s => s.status == "Completed")).length : ℚ)
              / (p.subphases.length : ℚ)) * 100
        else if p.status == "Completed" then 100
        else if p.status == "Progress" then 50
        else 0)) := by
  rw [get_project_phase_info_phases, List.map_map]
  refine List.map_congr_left (fun p _ => ?_)
  simp [mkPhaseSummary, phaseProgress_eq]

/-- C7, counterexample.  The claim says a `Progress` subphase is preferred
over any earlier-ordered `Todo` subphase.  In `c7Phases` the current phase
has subphases `S1:Todo (order 1)` and `S2:Progress (order 2)`; the code
selects `S1`, the first subphase in `order` with status `Progress` OR `Todo`,
not the `Progress` subphase `S2`. -/
theorem c7_counterexample :
    (((get_project_phase_info c7Phases).current_phase.bind
        (fun c => c.current_subphase)).map (fun s => s.name)) = some "S1"
    ∧ (some "S1" : Option String) ≠ some "S2" := by
  constructor
  · simp [c7Phases, get_project_phase_info, sortPhases, List.insertionSort,
      List.orderedInsert, aggStep, mkPhaseSummary, mkCurrentPhase,
      phaseProgress, activeSubphase, sortSubphases]
  · simp

/-- C7 as amended: within the selected current phase, the aggregator picks as
`current_subphase` the first subphase in `order` whose status is `Progress`
or `Todo` — an earlier `Todo` subphase wins over a later `Progress` one — and
`current_subphase` is absent exactly when no subphase has either status. -/
theorem c7_current_subphase_is_first_progress_or_todo (ps : List Phase) :
    ((get_project_phase_info ps).current_phase.map (fun c => c.current_subphase)) =
      ((sortPhases ps).reverse.find? (fun p => p.status == "Progress")).map
        (fun p => (sortSubphases p.subphases).find?
          (fun s => s.status == "Progress" || s.status == "Todo")) := by
  rw [get_project_phase_info_current_phase, Option.map_map]
  rfl

/-- C8, confirmed: overall progress is the equal-weighted average of the
per-phase progress values (weight 1 per phase, whatever its subphase count);
on three phases `Completed`/`Progress`/`Todo` without subphases it is
`(100 + 50 + 0) / 3 = 50`, and the current phase is the `Progress` one. -/
theorem c8_overall_progress_equal_weighted_average
    (ps : List Phase) (h : ps ≠ []) :
    (get_project_phase_info ps).overall_progress =
      (ps.map phaseProgress).sum / (ps.length : ℚ)
    ∧ (get_project_phase_info threeStatusPhases).overall_progress = 50
    ∧ ((get_project_phase_info threeStatusPhases).current_phase.map
        (fun c => c.name)) = some "P2" := by
  refine ⟨get_project_phase_info_overall ps h, ?_, ?_⟩
  · simp [threeStatusPhases, get_project_phase_info, sortPhases, List.insertionSort,
      List.orderedInsert, aggStep, mkPhaseSummary, mkCurrentPhase,
      phaseProgress, activeSubphase, sortSubphases]
    norm_num
  · simp [threeStatusPhases, get_project_phase_info, sortPhases, List.insertionSort,
      List.orderedInsert, aggStep, mkPhaseSummary, mkCurrentPhase,
      phaseProgress, activeSubphase, sortSubphases]

/-- Witness for C8 at the concrete three-phase fixture. -/
theorem c8_witness :
    (get_project_phase_info threeStatusPhases).overall_progress =
      (threeStatusPhases.map phaseProgress).sum / (threeStatusPhases.length : ℚ)
    ∧ (get_project_phase_info threeStatusPhases).overall_progress = 50
    ∧ ((get_project_phase_info threeStatusPhases).current_phase.map
        (fun c => c.name)) = some "P2" :=
  c8_overall_progress_equal_weighted_average threeStatusPhases (by simp [threeStatusPhases])

/-! ## Project queries (`project_queries.py`, `base_queries.py`) -/

/-- `BaseQueries._get_project_status`: a status label derived from
`percentComplete`. -/
def _get_project_status (percent_complete : ℚ) : String :=
  if percent_complete = 0 then "Not Started"
  else if percent_complete < 25 then "Planning"
  else if percent_complete < 100 then "In Progress"
  else "Completed"

/-- Dictionary returned by `ProjectQueries.get_project_details`.  The client,
designer and developer names come from other tables and no claim touches
them, so they are not modelled. -/
structure ProjectDetails where
  project : Project
  status : String
  phase_info : PhaseInfo
deriving Repr, DecidableEq

/-- `ProjectQueries.get_project_details`: first an exact (case-sensitive)
match on `name`; only if that fails AND the identifier is longer than 30
characters, an exact match on `id`; the found row is enriched with
`phase_info` and a derived `status`. -/
def get_project_details (db : List Project) (project_id : String) :
    Option ProjectDetails :=
  let byName := db.find? (fun p => p.name == project_id)
  let found :=
    match byName with
    | some p => some p
    | none =>
      if project_id.length > 30 then db.find? (fun p => p.id == project_id)
      else none
  found.map (fun p =>
    { project := p
      status := _get_project_status p.percentComplete
      phase_info := get_project_phase_info p.phases })

/-- `ProjectQueries.get_project_by_name`: an exact case-insensitive name
match (`name ILIKE %s`), then a partial case-insensitive substring match
(`name ILIKE '%…%' ORDER BY "updatedAt" DESC LIMIT 1`). -/
def get_project_by_name (db : List Project) (project_name : String) :
    Option Project :=
  match db.find? (fun p => lowerStr p.name == lowerStr project_name) with
  | some p => some p
  | none =>
    (sortByUpdatedDesc (db.filter (fun p => strContainsCI p.name project_name))).head?

/-- Row of the list returned by `ProjectQueries.get_all_projects`: the
project columns plus either `current_phase`/`phase_progress` (when the
aggregator reports a current phase) or a derived `status`. -/
structure ProjectListEntry where
  id : String
  name : String
  updatedAt : Nat
  percentComplete : ℚ
  current_phase : Option String
  phase_progress : Option ℚ
  status : Option String
deriving Repr, DecidableEq

/-- Per-row enrichment inside the `get_all_projects` loop. -/
def enrichListEntry (p : Project) : ProjectListEntry :=
  match (get_project_phase_info p.phases).current_phase with
  | some cp =>
      { id := p.id, name := p.name, updatedAt := p.updatedAt
        percentComplete := p.percentComplete
        current_phase := some cp.name
        phase_progress := some cp.progress
        status := none }
  | none =>
      { id := p.id, name := p.name, updatedAt := p.updatedAt
        percentComplete := p.percentComplete
        current_phase := none
        phase_progress := none
        status := some (_get_project_status p.percentComplete) }

/-- `ProjectQueries.get_all_projects`: the `projects` table ordered by
`updatedAt` descending, truncated by `LIMIT %s` (default 100), each row
enriched. -/
def get_all_projects (db : List Project) (limit : Nat := 100) :
    List ProjectListEntry :=
  ((sortByUpdatedDesc db).take limit).map enrichListEntry

/-- `PhaseQueries.get_project_phase_status` output dictionary. -/
structure PhaseStatus where
  project_id : String
  project_name : String
  status : String
  current_phase : String
  phase_info : PhaseInfo
  overall_progress : ℚ
deriving Repr, DecidableEq

/-- `PhaseQueries.get_project_phase_status`: resolve through
`get_project_details`, falling back to `get_project_by_name`, then read
fields with defaults.  Neither returned dictionary carries a
`current_phase` key (only `phase_info` has one inside), so the top-level
`current_phase` field is always the default string `Unknown`; the by-name
row carries no `status`/`phase_info` keys, so those default to `Unknown`
and the empty dictionary. -/
def get_project_phase_status (db : List Project) (project_id : String) :
    Option PhaseStatus :=
  match get_project_details db project_id with
  | some d =>
      some { project_id := d.project.id
             project_name := d.project.name
             status := d.status
             current_phase := "Unknown"
             phase_info := d.phase_info
             overall_progress := d.phase_info.overall_progress }
  | none =>
    match get_project_by_name db project_id with
    | some p =>
        some { project_id := p.id
               project_name := p.name
               status := "Unknown"
               current_phase := "Unknown"
               phase_info := ⟨[], none, 0, 0⟩
               overall_progress := 0 }
    | none => none

/-! ## Query analysis structures (`processor.py`) -/

/-- The analysis dictionary flowing through `analyze_query`.  Every key of
the Python dict may be absent, which `Option` (and, for `filters`, an
association list of present keys) models; a Python `None` value stored
under a present key behaves like an absent key for every consumer in the
claims and is modelled as absence. -/
structure Analysis where
  intent : Option String
  tables : List String
  filters : Option (List (String × String))
  generate_chart : Option Bool
  chart_type : Option String
  comparison : Option Bool
  explanation : Option String
deriving Repr, DecidableEq

/-- Key lookup in the `filters` dictionary. -/
def getF : List (String × String) → String → Option String
  | [], _ => none
  | (k, v) :: t, key => if k == key then some v else getF t key

/-- Outcome of the oracle call `openai_client.create_chat_completion`: the
raw response text, or a raised exception with its message. -/
inductive OracleResult where
  | ok (text : String)
  | raised (msg : String)
deriving Repr, DecidableEq

/-! ## Entity-extraction regexes of `_enhance_analysis_with_entities` -/

/-- Fixed allow-list in the regex `(CABOT-1B|JAIN-1B|ELMGROVE-1B|MCKIERNAN-1B)`. -/
def knownProjectCodes : List String :=
  ["CABOT-1B", "JAIN-1B", "ELMGROVE-1B", "MCKIERNAN-1B"]

/-- Leftmost case-insensitive search for one of the literal alternatives;
at each position the first alternative that matches wins, like `re.search`
on a literal alternation.  The stored value is `group(1).upper()`, which for
these uppercase literals is the literal itself. -/
def findProjectCodeAux : List Char → Option String
  | [] => none
  | h :: t =>
    match knownProjectCodes.find? (fun code => ciPrefixOf code.toList (h :: t)) with
    | some code => some code
    | none => findProjectCodeAux t

/-- Project-code extraction from the query text. -/
def findProjectCode (q : String) : Option String :=
  findProjectCodeAux q.toList

/-- Greedy `\d{1,2}` followed by a literal separator; returns the consumed
characters (separator included) and the rest. -/
def digits12Sep (sep : Char) : List Char → Option (List Char × List Char)
  | a :: b :: c :: rest =>
    if a.isDigit && b.isDigit && c = sep then some ([a, b, c], rest)
    else if a.isDigit && b = sep then some ([a, b], c :: rest)
    else none
  | a :: b :: rest =>
    if a.isDigit && b = sep then some ([a, b], rest) else none
  | _ => none

/-- Exactly `\d{4}`. -/
def digits4 : List Char → Option (List Char × List Char)
  | a :: b :: c :: d :: rest =>
    if a.isDigit && b.isDigit && c.isDigit && d.isDigit then
      some ([a, b, c, d], rest)
    else none
  | _ => none

/-- Greedy `\d{1,2}` at the end of a pattern. -/
def digits12End : List Char → Option (List Char)
  | a :: b :: _ =>
    if a.isDigit && b.isDigit then some [a, b]
    else if a.isDigit then some [a] else none
  | [a] => if a.isDigit then some [a] else none
  | [] => none

/-- A single mandatory literal character. -/
def expectChar (c : Char) : List Char → Option (List Char)
  | h :: t => if h = c then some t else none
  | [] => none

/-- Match of `\d{1,2}SEP\d{1,2}SEP\d{4}` at the current position, returning
the matched text (the stored `group(1)`). -/
def matchMDYAt (sep : Char) (s : List Char) : Option String :=
  (digits12Sep sep s).bind (fun md =>
    (digits12Sep sep md.2).bind (fun dd =>
      (digits4 dd.2).map (fun yy =>
        String.mk (md.1 ++ dd.1 ++ yy.1))))

/-- Match of `\d{4}-\d{1,2}-\d{1,2}` at the current position. -/
def matchYMDAt (s : List Char) : Option String :=
  (digits4 s).bind (fun yy =>
    (expectChar '-' yy.2).bind (fun r1 =>
      (digits12Sep '-' r1).bind (fun mm =>
        (digits12End mm.2).map (fun dd =>
          String.mk (yy.1 ++ ['-'] ++ mm.1 ++ dd)))))

/-- Leftmost-match scan, like `re.search`: try the position matcher at every
suffix. -/
def searchAux (f : List Char → Option String) : List Char → Option String
  | [] => f []
  | h :: t =>
    match f (h :: t) with
    | some r => some r
    | none => searchAux f t

/-- `re.search` over a string. -/
def searchIn (f : List Char → Option String) (s : String) : Option String :=
  searchAux f s.toList

/-- Case-insensitive literal alternation at the current position, returning
the matched original-case characters and the rest. -/
def matchAltCI (alts : List String) (s : List Char) :
    Option (List Char × List Char) :=
  match alts.find? (fun a => ciPrefixOf a.toList s) with
  | some a => some (s.take a.toList.length, s.drop a.toList.length)
  | none => none

/-- Match of `(this|next|last) (week|month|quarter|year)` (IGNORECASE) at the
current position; the stored value is `group(1) ++ " " ++ group(2)` in the
original casing of the query. -/
def matchTimePeriodAt (s : List Char) : Option String :=
  (matchAltCI ["this", "next", "last"] s).bind (fun g1 =>
    (expectChar ' ' g1.2).bind (fun r1 =>
      (matchAltCI ["week", "month", "quarter", "year"] r1).map (fun g2 =>
        String.mk g1.1 ++ " " ++ String.mk g2.1)))

/-- Match of `(completed|in progress|todo|pending|active|done)` (IGNORECASE)
at the current position, returning the matched original-case text. -/
def matchStatusAt (s : List Char) : Option String :=
  (matchAltCI ["completed", "in progress", "todo", "pending", "active", "done"] s).map
    (fun g => String.mk g.1)

/-- Status extraction: the matched text, title-cased on storage. -/
def searchStatusValue (q : String) : Option String :=
  (searchIn matchStatusAt q).map titleCase

/-- One guarded insertion into `filters`: store the extracted value only when
the regex matched and the key is not already present. -/
def addFilterIfAbsent (key : String) (v : Option String)
    (fs : List (String × String)) : List (String × String) :=
  match v, getF fs key with
  | some w, none => fs ++ [(key, w)]
  | _, _ => fs

/-- `QueryProcessor._enhance_analysis_with_entities`.  Filter keys are added
only when absent; `generate_chart`, `chart_type` and `comparison` are set
unconditionally whenever the corresponding keywords occur in the query. -/
def _enhance_analysis_with_entities (analysis : Analysis) (user_query : String) :
    Analysis :=
  let fs0 := analysis.filters.getD []
  let fs1 := addFilterIfAbsent "project_id" (findProjectCode user_query) fs0
  let fs2 := addFilterIfAbsent "date" (searchIn (matchMDYAt '/') user_query) fs1
  let fs3 := addFilterIfAbsent "date" (searchIn (matchMDYAt '-') user_query) fs2
  let fs4 := addFilterIfAbsent "date" (searchIn matchYMDAt user_query) fs3
  let fs5 := addFilterIfAbsent "time_period" (searchIn matchTimePeriodAt user_query) fs4
  let fs6 := addFilterIfAbsent "status" (searchStatusValue user_query) fs5
  let wantsChart := lowerContains user_query "chart" || lowerContains user_query "graph"
      || lowerContains user_query "visual"
  let wantsComparison := lowerContains user_query "compare"
      || lowerContains user_query "comparison" || lowerContains user_query "versus"
      || lowerContains user_query " vs "
  { analysis with
    filters := some fs6
    generate_chart := if wantsChart then some true else analysis.generate_chart
    chart_type :=
      if wantsChart then
        some (if lowerContains user_query "bar" then "bar"
          else if lowerContains user_query "pie" then "pie"
          else if lowerContains user_query "line" then "line"
          else if lowerContains user_query "progress" then "phase_progress"
          else if lowerContains user_query "budget" then "budget"
          else "phase_progress")
      else analysis.chart_type
    comparison := if wantsComparison then some true else analysis.comparison }

/-! ## `QueryProcessor.analyze_query` -/

/-- Keyword fallback `list`+`project` on the parse-failure path. -/
def fallbackListProjects : Analysis :=
  { intent := some "list_projects", tables := ["projects"], filters := some []
    generate_chart := none, chart_type := none, comparison := none
    explanation := some "Listing all projects based on query keywords" }

/-- Keyword fallback `status`+`project` on the parse-failure path. -/
def fallbackProjectStatus : Analysis :=
  { intent := some "project_status", tables := ["projects"], filters := some []
    generate_chart := none, chart_type := none, comparison := none
    explanation := some "Getting project status based on query keywords" }

/-- Keyword fallback `budget` on the parse-failure path. -/
def fallbackBudgetInfo : Analysis :=
  { intent := some "budget_info", tables := ["budgets"], filters := some []
    generate_chart := none, chart_type := none, comparison := none
    explanation := some "Getting budget information based on query keywords" }

/-- Default structure when every parse-failure fallback misses. -/
def fallbackUnknown : Analysis :=
  { intent := some "unknown", tables := [], filters := some []
    generate_chart := none, chart_type := none, comparison := none
    explanation := some "Failed to analyze query" }

/-- Keyword fallback `list`+`project` on the exception path. -/
def errorFallbackListProjects : Analysis :=
  { intent := some "list_projects", tables := ["projects"], filters := some []
    generate_chart := none, chart_type := none, comparison := none
    explanation := some "Falling back to basic intent detection due to error" }

/-- Default structure on the exception path. -/
def errorFallbackUnknown (e : String) : Analysis :=
  { intent := some "unknown", tables := [], filters := some []
    generate_chart := none, chart_type := none, comparison := none
    explanation := some ("Error: " ++ e) }

/-- `QueryProcessor.analyze_query`.  The collaborators are passed in:
`extract_json` is `_extract_json` (fenced-code-block scan then raw brace
scan), `json_loads` is the direct `json.loads` parse, and
`pattern_matching_fallback` is `_pattern_matching_fallback` (the ordered
regex classifier); theorems quantify over all of their behaviours.  The
oracle outcome is the `oracle` argument.  Note the asymmetry of the source:
on the parse-failure path the classifier and three keyword heuristics run;
on the exception path only the `list`+`project` heuristic runs. -/
def analyze_query (extract_json json_loads pattern_matching_fallback : String → Option Analysis)
    (oracle : OracleResult) (user_query : String) : Analysis :=
  match oracle with
  | OracleResult.ok analysis_text =>
    match extract_json analysis_text with
    | some analysis => _enhance_analysis_with_entities analysis user_query
    | none =>
      match json_loads analysis_text with
      | some analysis => _enhance_analysis_with_entities analysis user_query
      | none =>
        match pattern_matching_fallback user_query with
        | some analysis => analysis
        | none =>
          if lowerContains user_query "list" && lowerContains user_query "project" then
            fallbackListProjects
          else if lowerContains user_query "status" && lowerContains user_query "project" then
            fallbackProjectStatus
          else if lowerContains user_query "budget" then
            fallbackBudgetInfo
          else fallbackUnknown
  | OracleResult.raised e =>
    if lowerContains user_query "list" && lowerContains user_query "project" then
      errorFallbackListProjects
    else errorFallbackUnknown e

/-! ## Operation Dispatcher (`execute_database_operation`, modelled branches) -/

/-- Apostrophe character used inside result messages. -/
def squote : String := String.mk [Char.ofNat 39]

/-- Payloads carried by the result envelope on the modelled branches. -/
inductive EnvData where
  | projects (rows : List ProjectListEntry)
  | phase_status (ps : PhaseStatus)
deriving Repr, DecidableEq

/-- The uniform result envelope `{success, data, message, chart}`. -/
structure ResultEnvelope where
  success : Bool
  data : Option EnvData
  message : String
  chart : Option String
deriving Repr, DecidableEq

/-- The fixed expansion of the `active` status filter. -/
def active_statuses : List String := ["In Progress", "Planning", "Not Started"]

/-- The `list_projects` branch of `execute_database_operation`: fetch
`get_all_projects()` (default limit 100), then post-filter by the optional
`status` filter (`active` expands to `active_statuses`; a missing or empty
filter string is falsy and skips filtering). -/
def list_projects_result (db : List Project) (analysis : Analysis) :
    ResultEnvelope :=
  let projects := get_all_projects db 100
  let projects :=
    match getF (analysis.filters.getD []) "status" with
    | some status_filter =>
      if status_filter == "" then projects
      else if lowerStr status_filter == "active" then
        projects.filter (fun p =>
          match p.status with
          | some s => active_statuses.contains s
          | none => false)
      else
        projects.filter (fun p => lowerStr (p.status.getD "") == lowerStr status_filter)
    | none => projects
  { success := true
    data := some (EnvData.projects projects)
    message := "Projects retrieved successfully"
    chart := none }

/-- The `project_phase_status` branch of `execute_database_operation`: it
reads ONLY the `project_name` filter (never `project_id`), resolves through
`get_project_by_name`, and calls `get_project_phase_status` on the resolved
id; a missing (or falsy) `project_name` yields the failure envelope. -/
def project_phase_status_result (db : List Project) (analysis : Analysis) :
    ResultEnvelope :=
  match getF (analysis.filters.getD []) "project_name" with
  | some project_name =>
    if project_name == "" then
      { success := false, data := none
        message := "Project name is required", chart := none }
    else
      match get_project_by_name db project_name with
      | none =>
        { success := false, data := none
          message := "Project " ++ squote ++ project_name ++ squote ++ " not found"
          chart := none }
      | some project =>
        { success := true
          data := (get_project_phase_status db project.id).map EnvData.phase_status
          message := "Current phase and stage for project " ++ squote ++ project_name
              ++ squote ++ " retrieved successfully"
          chart := none }
  | none =>
    { success := false, data := none
      message := "Project name is required", chart := none }

/-- `QueryProcessor.execute_database_operation`, restricted to the branches
the claims exercise; every other intent falls through to the initial
`Operation not supported` envelope exactly as an unmatched intent does in
the source. -/
def execute_database_operation (db : List Project) (analysis : Analysis) :
    ResultEnvelope :=
  let intent := analysis.intent.getD "unknown"
  if intent == "list_projects" then list_projects_result db analysis
  else if intent == "project_phase_status" then project_phase_status_result db analysis
  else
    { success := false, data := none
      message := "Operation not supported", chart := none }

/-! ## Small facts about the entity extractor -/

/-- The extractor never touches the `intent` key. -/
theorem enhance_intent (a : Analysis) (q : String) :
    (_enhance_analysis_with_entities a q).intent = a.intent := rfl

/-- The extractor always leaves a present `filters` mapping behind. -/
theorem enhance_filters_present (a : Analysis) (q : String) :
    (_enhance_analysis_with_entities a q).filters ≠ none := by
  simp [_enhance_analysis_with_entities]

/-! ## Claim C2: fallback behaviour of `analyze_query` -/

/-- C2, counterexample.  The claim says the exception path also runs the
pattern classifier and then all three keyword heuristics, so the query
`budget` (no `list`/`project`) would resolve to intent `budget_info`.  On
the exception path the code runs neither the classifier nor the `status`
and `budget` heuristics: it returns intent `unknown`. -/
theorem c2_counterexample :
    (analyze_query (fun _ => none) (fun _ => none) (fun _ => none)
        (OracleResult.raised "boom") "budget").intent = some "unknown"
    ∧ (some "unknown" : Option String) ≠ some "budget_info" := by
  constructor
  · rfl
  · simp

/-- C2 as amended: on the parse-failure path (oracle text returned, both
parse strategies failed) `analyze_query` runs the Deterministic Pattern
Classifier and then the three keyword heuristics
(`list`+`project` → `list_projects`, `status`+`project` → `project_status`,
`budget` → `budget_info`) in that order, defaulting to intent `unknown` with
empty filters.  On the exception path the classifier is NOT consulted and
only the `list`+`project` heuristic is applied before defaulting to
`unknown`. -/
theorem c2_fallback_paths
    (extract_json json_loads pattern_matching_fallback : String → Option Analysis)
    (txt msg q : String)
    (hej : extract_json txt = none) (hjl : json_loads txt = none) :
    (analyze_query extract_json json_loads pattern_matching_fallback
        (OracleResult.ok txt) q =
      (match pattern_matching_fallback q with
       | some a => a
       | none =>
         if lowerContains q "list" && lowerContains q "project" then
           fallbackListProjects
         else if lowerContains q "status" && lowerContains q "project" then
           fallbackProjectStatus
         else if lowerContains q "budget" then fallbackBudgetInfo
         else fallbackUnknown))
    ∧ (analyze_query extract_json json_loads pattern_matching_fallback
        (OracleResult.raised msg) q =
      (if lowerContains q "list" && lowerContains q "project" then
         errorFallbackListProjects
       else errorFallbackUnknown msg)) := by
  constructor
  · simp [analyze_query, hej, hjl]
  · rfl

/-- Witness for C2 at concrete collaborators and query. -/
theorem c2_witness :
    (analyze_query (fun _ => none) (fun _ => none) (fun _ => some fallbackBudgetInfo)
        (OracleResult.ok "not json") "hello" =
      (match (fun _ => some fallbackBudgetInfo : String → Option Analysis) "hello" with
       | some a => a
       | none =>
         if lowerContains "hello" "list" && lowerContains "hello" "project" then
           fallbackListProjects
         else if lowerContains "hello" "status" && lowerContains "hello" "project" then
           fallbackProjectStatus
         else if lowerContains "hello" "budget" then fallbackBudgetInfo
         else fallbackUnknown))
    ∧ (analyze_query (fun _ => none) (fun _ => none) (fun _ => some fallbackBudgetInfo)
        (OracleResult.raised "down") "hello" =
      (if lowerContains "hello" "list" && lowerContains "hello" "project" then
         errorFallbackListProjects
       else errorFallbackUnknown "down")) :=
  c2_fallback_paths (fun _ => none) (fun _ => none) (fun _ => some fallbackBudgetInfo)
    "not json" "down" "hello" rfl rfl

/-! ## Claim C4: shape of the `analyze_query` result -/

/-- An oracle JSON payload that parses but carries no `intent` key. -/
def intentlessAnalysis : Analysis :=
  { intent := none, tables := [], filters := some []
    generate_chart := none, chart_type := none, comparison := none
    explanation := none }

/-- C4, counterexample.  When the oracle output parses to a dictionary with
no `intent` key, `analyze_query` returns it (entity-enriched) without adding
any `intent`: the result's `intent` key is absent, not `unknown`. -/
theorem c4_counterexample :
    (analyze_query (fun _ => some intentlessAnalysis) (fun _ => none) (fun _ => none)
        (OracleResult.ok "response") "q").intent = none := rfl

/-- C4 as amended: `analyze_query` is total and, provided the pattern
classifier always emits `intent` and `filters` keys (the source classifier
does in every rule), its result always carries a present `filters` mapping;
but `intent` is NOT defaulted on the successful-parse path: the result can
lack `intent` only when the oracle's parsed JSON itself lacked it. -/
theorem c4_result_shape
    (extract_json json_loads pattern_matching_fallback : String → Option Analysis)
    (oracle : OracleResult) (q : String)
    (hpf_filters : ∀ s a, pattern_matching_fallback s = some a → a.filters ≠ none)
    (hpf_intent : ∀ s a, pattern_matching_fallback s = some a → a.intent ≠ none) :
    (analyze_query extract_json json_loads pattern_matching_fallback oracle q).filters ≠ none
    ∧ ((analyze_query extract_json json_loads pattern_matching_fallback oracle q).intent = none →
        ∃ txt a, oracle = OracleResult.ok txt
          ∧ (extract_json txt = some a ∨ (extract_json txt = none ∧ json_loads txt = some a))
          ∧ a.intent = none) := by
  cases oracle with
  | raised e =>
    constructor
    · by_cases h : (lowerContains q "list" && lowerContains q "project") = true <;>
        simp [analyze_query, h, errorFallbackListProjects, errorFallbackUnknown]
    · intro hint
      exfalso
      by_cases h : (lowerContains q "list" && lowerContains q "project") = true <;>
        simp [analyze_query, h, errorFallbackListProjects, errorFallbackUnknown] at hint
  | ok txt =>
    rcases hext : extract_json txt with _ | a
    · rcases hjl : json_loads txt with _ | b
      · rcases hpf : pattern_matching_fallback q with _ | c
        · constructor
          · by_cases h1 : (lowerContains q "list" && lowerContains q "project") = true <;>
              by_cases h2 : (lowerContains q "status" && lowerContains q "project") = true <;>
              by_cases h3 : lowerContains q "budget" = true <;>
              simp [analyze_query, hext, hjl, hpf, h1, h2, h3, fallbackListProjects,
                fallbackProjectStatus, fallbackBudgetInfo, fallbackUnknown]
          · intro hint
            exfalso
            by_cases h1 : (lowerContains q "list" && lowerContains q "project") = true <;>
              by_cases h2 : (lowerContains q "status" && lowerContains q "project") = true <;>
              by_cases h3 : lowerContains q "budget" = true <;>
              simp [analyze_query, hext, hjl, hpf, h1, h2, h3, fallbackListProjects,
                fallbackProjectStatus, fallbackBudgetInfo, fallbackUnknown] at hint
        · constructor
          · simpa [analyze_query, hext, hjl, hpf] using hpf_filters q c hpf
          · intro hint
            exact absurd (by simpa [analyze_query, hext, hjl, hpf] using hint)
              (hpf_intent q c hpf)
      · constructor
        · simpa [analyze_query, hext, hjl] using enhance_filters_present b q
        · intro hint
          exact ⟨txt, b, rfl, Or.inr ⟨hext, hjl⟩,
            by simpa [analyze_query, hext, hjl, enhance_intent] using hint⟩
    · constructor
      · simpa [analyze_query, hext] using enhance_filters_present a q
      · intro hint
        exact ⟨txt, a, rfl, Or.inl hext,
          by simpa [analyze_query, hext, enhance_intent] using hint⟩

/-- Witness for C4 at concrete collaborators, oracle outcome and query. -/
theorem c4_witness :
    (analyze_query (fun _ => some intentlessAnalysis) (fun _ => none) (fun _ => none)
        (OracleResult.ok "response") "q").filters ≠ none
    ∧ ((analyze_query (fun _ => some intentlessAnalysis) (fun _ => none) (fun _ => none)
        (OracleResult.ok "response") "q").intent = none →
        ∃ txt a, (OracleResult.ok "response" : OracleResult) = OracleResult.ok txt
          ∧ ((fun _ => some intentlessAnalysis : String → Option Analysis) txt = some a
              ∨ ((fun _ => some intentlessAnalysis : String → Option Analysis) txt = none
                  ∧ (fun _ => (none : Option Analysis)) txt = some a))
          ∧ a.intent = none) :=
  c4_result_shape (fun _ => some intentlessAnalysis) (fun _ => none) (fun _ => none)
    (OracleResult.ok "response") "q" (fun _ _ h => nomatch h) (fun _ _ h => nomatch h)

/-! ## Claim C9: the extractor never overwrites present filter keys -/

/-- Appending new entries to an association list cannot change the value
found for an already-present key. -/
theorem getF_append_of_some (gs : List (String × String)) (k v : String) :
    ∀ fs : List (String × String), getF fs k = some v → getF (fs ++ gs) k = some v := by
  intro fs
  induction fs with
  | nil => intro h; cases h
  | cons p t ih =>
    intro h
    obtain ⟨k1, v1⟩ := p
    by_cases hk : (k1 == k) = true
    · simpa [getF, hk] using h
    · simp only [getF, hk, List.cons_append, if_neg] at h ⊢
      exact ih h

/-- A single guarded insertion preserves the value of every present key. -/
theorem getF_addFilterIfAbsent_of_some (key : String) (w : Option String)
    (fs : List (String × String)) (k v : String) (h : getF fs k = some v) :
    getF (addFilterIfAbsent key w fs) k = some v := by
  rcases w with _ | w0
  · simpa [addFilterIfAbsent] using h
  · rcases hkey : getF fs key with _ | u
    · simpa [addFilterIfAbsent, hkey] using getF_append_of_some [(key, w0)] k v fs h
    · simpa [addFilterIfAbsent, hkey] using h

/-- C9, counterexample.  The claim says oracle-provided top-level values such
as `generate_chart` and `chart_type` are never overwritten.  On the query
`show a bar chart` the extractor unconditionally overwrites an
oracle-provided `chart_type = pie` with `bar` and `generate_chart = false`
with `true`. -/
theorem c9_counterexample :
    ((_enhance_analysis_with_entities
        { intent := some "project_status", tables := [], filters := some []
          generate_chart := some false, chart_type := some "pie"
          comparison := none, explanation := none }
        "show a bar chart").chart_type = some "bar")
    ∧ ((_enhance_analysis_with_entities
        { intent := some "project_status", tables := [], filters := some []
          generate_chart := some false, chart_type := some "pie"
          comparison := none, explanation := none }
        "show a bar chart").generate_chart = some true)
    ∧ (some "bar" : Option String) ≠ some "pie" := by
  refine ⟨rfl, rfl, by simp⟩

/-- C9 as amended: the extractor never overwrites a FILTER key already
present in the input analysis (`project_id`, `date`, `time_period`,
`status`, and any other present key keep their input values; new filter
entries are only appended for absent keys); top-level `generate_chart`,
`chart_type` and `comparison`, however, are set unconditionally whenever the
corresponding keywords occur in the query text, overwriting oracle-provided
values. -/
theorem c9_present_filters_preserved (a : Analysis) (q : String) (k v : String)
    (h : getF (a.filters.getD []) k = some v) :
    getF ((_enhance_analysis_with_entities a q).filters.getD []) k = some v := by
  simp only [_enhance_analysis_with_entities, Option.getD_some]
  exact getF_addFilterIfAbsent_of_some _ _ _ _ _
    (getF_addFilterIfAbsent_of_some _ _ _ _ _
      (getF_addFilterIfAbsent_of_some _ _ _ _ _
        (getF_addFilterIfAbsent_of_some _ _ _ _ _
          (getF_addFilterIfAbsent_of_some _ _ _ _ _
            (getF_addFilterIfAbsent_of_some _ _ _ _ _ h)))))

/-- Witness for C9: an oracle-provided `project_id` survives enhancement on a
query that mentions a different known project code. -/
theorem c9_witness :
    getF ((_enhance_analysis_with_entities
        { intent := some "project_status", tables := []
          filters := some [("project_id", "JAIN-1B")]
          generate_chart := none, chart_type := none, comparison := none
          explanation := none }
        "status of CABOT-1B").filters.getD []) "project_id" = some "JAIN-1B" :=
  c9_present_filters_preserved
    { intent := some "project_status", tables := []
      filters := some [("project_id", "JAIN-1B")]
      generate_chart := none, chart_type := none, comparison := none
      explanation := none }
    "status of CABOT-1B" "project_id" "JAIN-1B" rfl

/-! ## Claim C5: the `project_phase_status` flow for `"What phase is CABOT-1B in?"` -/

/-- The end-to-end query text of the claim. -/
def phaseQueryText : String := "What phase is CABOT-1B in?"

/-- An analysis carrying the claimed intent with no filters yet (what an
oracle classification without entities looks like before enrichment). -/
def phaseIntentAnalysis : Analysis :=
  { intent := some "project_phase_status", tables := [], filters := some []
    generate_chart := none, chart_type := none, comparison := none
    explanation := none }

/-- A database holding the CABOT-1B project with a `Progress` phase. -/
def cabotProject : Project :=
  ⟨"3f8a2c1d-0000-4000-8000-1234567890ab", "CABOT-1B", 100, 10,
   [⟨"ph1", "Foundation", "Progress", 1, []⟩]⟩

/-- C5, counterexample.  With intent `project_phase_status` and filters
containing `project_id = "CABOT-1B"` (exactly what resolution produces for
the claimed text when the oracle supplies no `project_name`), the dispatcher
returns `success = false` and no data at all — the handler never reads the
`project_id` filter — even though the database contains CABOT-1B with a
`Progress` phase. -/
theorem c5_counterexample :
    execute_database_operation [cabotProject]
      { intent := some "project_phase_status", tables := []
        filters := some [("project_id", "CABOT-1B")]
        generate_chart := none, chart_type := none, comparison := none
        explanation := none }
      = { success := false, data := none
          message := "Project name is required", chart := none } := rfl

/-- C5 as amended: for the text `"What phase is CABOT-1B in?"` the Entity
Extractor does add `project_id = "CABOT-1B"` to the filters; but the
`project_phase_status` handler reads ONLY the `project_name` filter — never
`project_id` — so for every database and every analysis with that intent
whose filters lack `project_name`, `execute` returns
`success = false, message = "Project name is required"` (and when it does
succeed via `project_name`, the top-level `current_phase` field of its data
is the literal `"Unknown"`, since `get_project_details` never sets that
key). -/
theorem c5_handler_ignores_project_id
    (db : List Project) (a : Analysis)
    (hintent : a.intent = some "project_phase_status")
    (hname : getF (a.filters.getD []) "project_name" = none) :
    getF ((_enhance_analysis_with_entities phaseIntentAnalysis phaseQueryText).filters.getD [])
        "project_id" = some "CABOT-1B"
    ∧ execute_database_operation db a =
        { success := false, data := none
          message := "Project name is required", chart := none }
    ∧ ∀ st, get_project_phase_status db st = none
        ∨ ∃ ps, get_project_phase_status db st = some ps ∧ ps.current_phase = "Unknown" := by
  refine ⟨rfl, ?_, ?_⟩
  · simp [execute_database_operation, hintent, project_phase_status_result, hname]
  · intro st
    rcases h : get_project_phase_status db st with _ | ps
    · exact Or.inl rfl
    · refine Or.inr ⟨ps, rfl, ?_⟩
      unfold get_project_phase_status at h
      rcases hd : get_project_details db st with _ | d
      · rw [hd] at h
        rcases hn : get_project_by_name db st with _ | p
        · rw [hn] at h; cases h
        · rw [hn] at h
          cases h
          rfl
      · rw [hd] at h
        cases h
        rfl

/-- Witness for C5 at the empty database and the enriched claim analysis. -/
theorem c5_witness :
    getF ((_enhance_analysis_with_entities phaseIntentAnalysis phaseQueryText).filters.getD [])
        "project_id" = some "CABOT-1B"
    ∧ execute_database_operation [] phaseIntentAnalysis =
        { success := false, data := none
          message := "Project name is required", chart := none }
    ∧ ∀ st, get_project_phase_status [] st = none
        ∨ ∃ ps, get_project_phase_status [] st = some ps ∧ ps.current_phase = "Unknown" :=
  c5_handler_ignores_project_id [] phaseIntentAnalysis rfl rfl

/-! ## Claim C6: the Project Identity Resolver -/

instance : IsTotal Project (fun a b => b.updatedAt ≤ a.updatedAt) :=
  ⟨fun a b => Nat.le_total b.updatedAt a.updatedAt⟩

instance : IsTrans Project (fun a b => b.updatedAt ≤ a.updatedAt) :=
  ⟨fun _ _ _ hab hbc => Nat.le_trans hbc hab⟩

/-- The head of the `updatedAt`-descending sort is a most-recently-updated
element of the list. -/
theorem sortByUpdatedDesc_head_max (l : List Project) (r : Project)
    (h : (sortByUpdatedDesc l).head? = some r) :
    r ∈ l ∧ ∀ p ∈ l, p.updatedAt ≤ r.updatedAt := by
  have hsorted : List.Sorted (fun a b => b.updatedAt ≤ a.updatedAt) (sortByUpdatedDesc l) :=
    List.sorted_insertionSort _ l
  rcases hs : sortByUpdatedDesc l with _ | ⟨a, t⟩
  · rw [hs] at h; cases h
  · rw [hs] at h
    have har : a = r := by simpa using h
    rw [hs] at hsorted
    constructor
    · have ha : a ∈ sortByUpdatedDesc l := by rw [hs]; exact List.mem_cons_self a t
      rw [← har]
      simpa [sortByUpdatedDesc] using ha
    · intro p hp
      have hp' : p ∈ a :: t := by
        rw [← hs]
        simpa [sortByUpdatedDesc] using hp
      rw [← har]
      rcases List.mem_cons.mp hp' with h1 | h2
      · rw [h1]
      · exact List.rel_of_sorted_cons hsorted p h2

/-- Fixture of the claim: CABOT-1A updated earlier than CABOT-1B. -/
def cabot1A : Project := ⟨"proj-id-a", "CABOT-1A", 1, 0, []⟩

/-- Fixture of the claim: the more recently updated CABOT project. -/
def cabot1B : Project := ⟨"proj-id-b", "CABOT-1B", 2, 0, []⟩

/-- A project whose canonical id is a short token. -/
def alphaProject : Project := ⟨"abc", "Alpha House", 0, 0, []⟩

/-- A 36-character identifier (a UUID-shaped token). -/
def longIdent : String := "aaaaaaaa-bbbb-cccc-dddd-eeeeeeeeeeee"

/-- A project whose canonical id is `longIdent`. -/
def projWithLongId : Project := ⟨longIdent, "Project A", 0, 0, []⟩

/-- A different project whose NAME is `longIdent`. -/
def projNamedLongIdent : Project := ⟨"other-id", longIdent, 0, 0, []⟩

/-- C6, counterexample.  The claim's step (1) — exact match on canonical ID
first — fails three ways on `get_project_details`: a project whose id is the
identifier `abc` is not found at all (the id branch only runs for
identifiers longer than 30 characters); for a 36-character identifier that
is one project's id and another project's name, the NAME match wins, not the
claimed id-first match; and the name step is case-SENSITIVE, not the claimed
case-insensitive match (step 2). -/
theorem c6_counterexample :
    get_project_details [alphaProject] "abc" = none
    ∧ (get_project_details [projWithLongId, projNamedLongIdent] longIdent).map
        (fun d => d.project.name) = some longIdent
    ∧ get_project_details [cabot1B] "cabot-1b" = none :=
  ⟨rfl, rfl, rfl⟩

/-- C6 as amended: `get_project_details` resolves in the order
(1) exact case-sensitive match on name, (2) exact match on canonical id,
attempted only when the identifier is longer than 30 characters;
`get_project_by_name` resolves by (1) exact case-insensitive name match,
then (2) partial case-insensitive substring name match returning the single
most-recently-updated match (`updatedAt` descending); in particular
identifier `CABOT` against `CABOT-1A` (older) and `CABOT-1B` (newer)
resolves to `CABOT-1B`. -/
theorem c6_resolution_order :
    (∀ (db : List Project) (ident : String) (d : ProjectDetails),
        get_project_details db ident = some d →
          d.project ∈ db
          ∧ (d.project.name = ident ∨ (ident.length > 30 ∧ d.project.id = ident)))
    ∧ (∀ (db : List Project) (nm : String),
        (∀ p ∈ db, ¬ lowerStr p.name = lowerStr nm) →
        ∀ q ∈ db, strContainsCI q.name nm = true →
          ∃ r, get_project_by_name db nm = some r ∧ r ∈ db
            ∧ strContainsCI r.name nm = true
            ∧ ∀ p ∈ db, strContainsCI p.name nm = true → p.updatedAt ≤ r.updatedAt)
    ∧ (get_project_by_name [cabot1A, cabot1B] "CABOT").map (fun p => p.name)
        = some "CABOT-1B" := by
  refine ⟨?_, ?_, rfl⟩
  · intro db ident d hd
    unfold get_project_details at hd
    rcases hn : db.find? (fun p => p.name == ident) with _ | p
    · rw [hn] at hd
      by_cases hlen : ident.length > 30
      · rw [if_pos hlen] at hd
        rcases hi : db.find? (fun p => p.id == ident) with _ | p2
        · rw [hi] at hd; cases hd
        · rw [hi] at hd
          simp only [Option.map_some', Option.some.injEq] at hd
          subst hd
          exact ⟨List.mem_of_find?_eq_some hi,
            Or.inr ⟨hlen, by simpa using List.find?_some hi⟩⟩
      · rw [if_neg hlen] at hd
        cases hd
    · rw [hn] at hd
      simp only [Option.map_some', Option.some.injEq] at hd
      subst hd
      exact ⟨List.mem_of_find?_eq_some hn,
        Or.inl (by simpa using List.find?_some hn)⟩
  · intro db nm hexact q hq hsub
    have hfind : db.find? (fun p => lowerStr p.name == lowerStr nm) = none := by
      rw [List.find?_eq_none]
      intro p hp
      simpa using hexact p hp
    rcases hh : (sortByUpdatedDesc (db.filter (fun p => strContainsCI p.name nm))).head?
        with _ | r
    · exfalso
      have hnil : sortByUpdatedDesc (db.filter (fun p => strContainsCI p.name nm)) = [] :=
        List.head?_eq_none_iff.mp hh
      have hperm := List.perm_insertionSort
        (fun a b : Project => b.updatedAt ≤ a.updatedAt)
        (db.filter (fun p => strContainsCI p.name nm))
      rw [show sortByUpdatedDesc (db.filter (fun p => strContainsCI p.name nm))
            = List.insertionSort (fun a b : Project => b.updatedAt ≤ a.updatedAt)
                (db.filter (fun p => strContainsCI p.name nm)) from rfl] at hnil
      rw [hnil] at hperm
      have : db.filter (fun p => strContainsCI p.name nm) = [] := hperm.symm.eq_nil
      have hqf : q ∈ db.filter (fun p => strContainsCI p.name nm) :=
        List.mem_filter.mpr ⟨hq, hsub⟩
      rw [this] at hqf
      cases hqf
    · obtain ⟨hrmem, hrmax⟩ :=
        sortByUpdatedDesc_head_max (db.filter (fun p => strContainsCI p.name nm)) r hh
      refine ⟨r, ?_, (List.mem_filter.mp hrmem).1, (List.mem_filter.mp hrmem).2, ?_⟩
      · unfold get_project_by_name
        rw [hfind]
        exact hh
      · intro p hp hpsub
        exact hrmax p (List.mem_filter.mpr ⟨hp, hpsub⟩)

/-- Witness for C6 at the CABOT fixture of the claim. -/
theorem c6_witness :
    ∃ r, get_project_by_name [cabot1A, cabot1B] "CABOT" = some r
      ∧ r ∈ [cabot1A, cabot1B]
      ∧ strContainsCI r.name "CABOT" = true
      ∧ ∀ p ∈ [cabot1A, cabot1B], strContainsCI p.name "CABOT" = true →
          p.updatedAt ≤ r.updatedAt :=
  c6_resolution_order.2.1 [cabot1A, cabot1B] "CABOT"
    (by decide) cabot1B (by simp) rfl

/-! ## Claim C10: the `list_projects` operation truncates to 100 rows -/

/-- Row enrichment keeps the `updatedAt` column. -/
theorem enrichListEntry_updatedAt (p : Project) :
    (enrichListEntry p).updatedAt = p.updatedAt := by
  unfold enrichListEntry
  rcases h : (get_project_phase_info p.phases).current_phase <;> simp [h]

/-- An analysis requesting the plain project list (no status filter). -/
def listAllAnalysis : Analysis :=
  { intent := some "list_projects", tables := ["projects"], filters := some []
    generate_chart := none, chart_type := none, comparison := none
    explanation := none }

/-- C10, confirmed: for every database state, dispatching intent
`list_projects` returns exactly `get_all_projects db 100`, whose length is
`min 100 db.length` — at most 100 rows, a strict truncation whenever more
than 100 projects exist — and whose rows are in `updatedAt`-descending
order. -/
theorem c10_list_projects_truncated_and_sorted (db : List Project) :
    execute_database_operation db listAllAnalysis =
      { success := true
        data := some (EnvData.projects (get_all_projects db 100))
        message := "Projects retrieved successfully", chart := none }
    ∧ (get_all_projects db 100).length = min 100 db.length
    ∧ List.Sorted (fun a b : ProjectListEntry => b.updatedAt ≤ a.updatedAt)
        (get_all_projects db 100) := by
  refine ⟨rfl, ?_, ?_⟩
  · simp [get_all_projects, sortByUpdatedDesc, List.length_insertionSort]
  · have hsorted : List.Sorted (fun a b : Project => b.updatedAt ≤ a.updatedAt)
        (sortByUpdatedDesc db) := List.sorted_insertionSort _ db
    have htake : List.Sorted (fun a b : Project => b.updatedAt ≤ a.updatedAt)
        ((sortByUpdatedDesc db).take 100) :=
      List.Pairwise.sublist (List.take_sublist 100 _) hsorted
    exact List.Pairwise.map enrichListEntry
      (fun a b hab => by
        simpa [enrichListEntry_updatedAt] using hab) htake
